import Mathlib

/-!
Shallow embedding of the Smart Bookmark application (Next.js + Supabase)
and proofs about its client synchronizer, API route handlers and
add-bookmark form.

The embedding follows the TypeScript source:
* `Bookmark` mirrors `src/types/bookmark.ts`.
* The realtime reconciler (`applyInsert`, `applyDeleteEvent`,
  `applyUpdate`) mirrors the `postgres_changes` payload handler in
  `BookmarkList.tsx` (the later revision with the `old?.id ?? new?.id`
  fallback for DELETE events).
* `POSThandler` and `DELETEhandler` mirror the route handlers in
  `src/app/api/bookmarks/route.ts` and `src/app/api/bookmarks/[id]/route.ts`.
* `handleSubmit` mirrors `AddBookmarkForm.tsx`.
* `fetchBookmarks` mirrors the snapshot fetch in `BookmarkList.tsx`.

JavaScript truthiness of strings (`""` is falsy, `undefined`/`null` are
falsy) is modelled explicitly wherever the source branches on it.
-/

namespace BookmarkApp

/-- Row shape from `src/types/bookmark.ts` (and the `bookmarks` table). -/
structure Bookmark where
  id : String
  user_id : String
  url : String
  title : String
  created_at : String
  updated_at : String
deriving DecidableEq, Repr

/-- The ids of the rows of a list, in order. -/
def ids (l : List Bookmark) : List String := l.map Bookmark.id

/-- JS truthiness of an optional string: `undefined`/`null` and `""` are falsy. -/
def jsTruthy : Option String → Bool
  | none => false
  | some s => s != ""

/-- INSERT branch of the realtime handler in `BookmarkList.tsx`:
`setBookmarks((prev) => [payload.new as Bookmark, ...prev])` —
an unconditional prepend. -/
def applyInsert (r : Bookmark) (l : List Bookmark) : List Bookmark :=
  r :: l

/-- `payload.old?.id ?? payload.new?.id` from the DELETE branch:
the nullish-coalescing operator takes the old slot's id when it is
present (even `""`), otherwise the new slot's id. -/
def deletedId (oldId newId : Option String) : Option String :=
  match oldId with
  | some i => some i
  | none => newId

/-- DELETE branch of the realtime handler in `BookmarkList.tsx`:
`const deletedId = old?.id ?? new?.id; if (deletedId) { prev.filter(b => b.id !== deletedId) }`.
The `if (deletedId)` guard is JS truthiness: `undefined` and `""` skip
the removal, leaving the list unchanged. -/
def applyDeleteEvent (oldId newId : Option String) (l : List Bookmark) :
    List Bookmark :=
  match deletedId oldId newId with
  | some i => if i != "" then l.filter (fun b => b.id != i) else l
  | none => l

/-- UPDATE branch of the realtime handler in `BookmarkList.tsx`:
`prev.map(b => b.id === updated.id ? updated : b)`. -/
def applyUpdate (r : Bookmark) (l : List Bookmark) : List Bookmark :=
  l.map (fun b => if b.id = r.id then r else b)

/-- A change-feed event as delivered to the realtime handler. -/
inductive FeedEvent where
  | insert (record : Bookmark)
  | delete (oldId newId : Option String)
  | update (record : Bookmark)
deriving DecidableEq, Repr

/-- Dispatch one feed event, exactly as the handler's `if`/`else if` chain. -/
def applyEvent (l : List Bookmark) (e : FeedEvent) : List Bookmark :=
  match e with
  | .insert r => applyInsert r l
  | .delete o n => applyDeleteEvent o n l
  | .update r => applyUpdate r l

/-- Apply a sequence of feed events in receipt order. -/
def applyEvents (l : List Bookmark) (es : List FeedEvent) : List Bookmark :=
  es.foldl applyEvent l

/-- An event is fresh at a list state when, if it is an insert, its
record's id is absent from that state. -/
def freshAt (l : List Bookmark) : FeedEvent → Bool
  | .insert r => decide (r.id ∉ ids l)
  | _ => true

/-- Every insert event in the sequence carries an id that is absent from
the list state at the moment the event is applied. -/
def freshInserts (l : List Bookmark) : List FeedEvent → Bool
  | [] => true
  | e :: es => freshAt l e && freshInserts (applyEvent l e) es

/-- A sample bookmark row used for concrete counterexamples and witnesses. -/
def b0 : Bookmark :=
  ⟨"id0", "user0", "https://x.com", "X", "2024-01-01", "2024-01-01"⟩

/-- A second sample row with a distinct id. -/
def b1 : Bookmark :=
  ⟨"id1", "user0", "https://y.com", "Y", "2024-01-02", "2024-01-02"⟩

/-- `b0` with the same id but different title, as an updated row. -/
def b0up : Bookmark :=
  ⟨"id0", "user0", "https://x.com", "X2", "2024-01-01", "2024-01-03"⟩

/- Helper lemmas about the reconciler. -/

theorem ids_applyUpdate (r : Bookmark) (l : List Bookmark) :
    ids (applyUpdate r l) = ids l := by
  unfold ids applyUpdate
  rw [List.map_map]
  apply List.map_congr_left
  intro b _
  by_cases h : b.id = r.id <;> simp [h, Function.comp]

theorem applyDeleteEvent_sublist (o n : Option String) (l : List Bookmark) :
    (applyDeleteEvent o n l).Sublist l := by
  unfold applyDeleteEvent
  cases deletedId o n with
  | none => exact List.Sublist.refl l
  | some i =>
    cases hb : (i != "") with
    | true => simp only [hb, if_true]; exact List.filter_sublist l
    | false => simp only [hb, if_false]; exact List.Sublist.refl l

theorem nodup_ids_applyEvent (l : List Bookmark) (e : FeedEvent)
    (h : (ids l).Nodup) (hf : freshAt l e = true) :
    (ids (applyEvent l e)).Nodup := by
  cases e with
  | insert r =>
    simp only [freshAt, decide_eq_true_eq] at hf
    simpa [applyEvent, applyInsert, ids] using And.intro hf h
  | delete o n =>
    exact h.sublist ((applyDeleteEvent_sublist o n l).map Bookmark.id)
  | update r =>
    simpa [applyEvent, ids_applyUpdate] using h

/-- Claim C1 counterexample: applying an insert event whose id is already
present does not replace the row in place; it prepends a second row with
the same id, breaking the dedup invariant on a duplicate-free list. -/
theorem insert_duplicate_id_counterexample :
    applyEvents [b0] [FeedEvent.insert b0] = [b0, b0] ∧
    (ids [b0]).Nodup ∧
    ¬ (ids (applyEvents [b0] [FeedEvent.insert b0])).Nodup := by
  refine ⟨rfl, by decide, ?_⟩
  decide

/-- Claim C1 (amended): for every sequence of feed events applied to an
initially duplicate-free list, the result is duplicate-free provided
every insert event's id is absent from the list state at the moment it is
applied; an insert whose id is already present prepends a second row with
that id rather than replacing in place. -/
theorem applyEvents_nodup_of_freshInserts (l : List Bookmark)
    (es : List FeedEvent) (h0 : (ids l).Nodup)
    (hf : freshInserts l es = true) :
    (ids (applyEvents l es)).Nodup := by
  induction es generalizing l with
  | nil => simpa [applyEvents] using h0
  | cons e es ih =>
    rw [freshInserts, Bool.and_eq_true] at hf
    have h1 := nodup_ids_applyEvent l e h0 hf.1
    simpa [applyEvents] using ih (applyEvent l e) h1 hf.2

/-- Witness for the amended C1 at a concrete input: a fresh insert, a
delete of the inserted row and an update, starting from `[b0]`. -/
theorem applyEvents_nodup_witness :
    (ids (applyEvents [b0]
      [FeedEvent.insert b1, FeedEvent.delete (some "id1") none,
       FeedEvent.update b0up])).Nodup :=
  applyEvents_nodup_of_freshInserts [b0]
    [FeedEvent.insert b1, FeedEvent.delete (some "id1") none,
     FeedEvent.update b0up]
    (by decide) (by decide)

/-- Claim C2 counterexample: applying the same insert event twice does not
leave the list in the state reached after applying it once. -/
theorem insert_not_idempotent_counterexample :
    applyInsert b0 (applyInsert b0 []) ≠ applyInsert b0 [] := by
  decide

/-- Claim C2 (amended): applying the same insert event twice prepends the
record a second time: the result is the record consed onto the
once-applied state, strictly longer than it, hence never equal to it (the
insert handler is not idempotent). -/
theorem applyInsert_twice (r : Bookmark) (l : List Bookmark) :
    applyInsert r (applyInsert r l) = r :: applyInsert r l ∧
    (applyInsert r (applyInsert r l)).length = (applyInsert r l).length + 1 ∧
    applyInsert r (applyInsert r l) ≠ applyInsert r l := by
  refine ⟨rfl, by simp [applyInsert], ?_⟩
  intro h
  have := congrArg List.length h
  simp [applyInsert] at this

/-- Witness for the amended C2 at a concrete input. -/
theorem applyInsert_twice_witness :
    applyInsert b0 (applyInsert b0 []) = b0 :: applyInsert b0 [] ∧
    (applyInsert b0 (applyInsert b0 [])).length =
      (applyInsert b0 []).length + 1 ∧
    applyInsert b0 (applyInsert b0 []) ≠ applyInsert b0 [] :=
  applyInsert_twice b0 []

/-- Claim C6: applying a delete event whose resolved id is absent from
the list is a no-op — the handler raises no error and returns the list
unchanged (this also covers the case where neither payload slot carries
an id). -/
theorem applyDeleteEvent_absent_noop (oldId newId : Option String)
    (l : List Bookmark)
    (h : ∀ i, deletedId oldId newId = some i → i ∉ ids l) :
    applyDeleteEvent oldId newId l = l := by
  unfold applyDeleteEvent
  cases hd : deletedId oldId newId with
  | none => rfl
  | some i =>
    cases hb : (i != "") with
    | false => simp only [hb]; rfl
    | true =>
      simp only [hb, if_true]
      apply List.filter_eq_self.mpr
      intro b hb'
      have hni := h i hd
      simp only [ids, List.mem_map] at hni
      push_neg at hni
      simpa using hni b hb'

/-- Witness for C6: deleting id `"id9"`, absent from `[b0, b1]`,
leaves the list unchanged. -/
theorem applyDeleteEvent_absent_noop_witness :
    applyDeleteEvent (some "id9") none [b0, b1] = [b0, b1] :=
  applyDeleteEvent_absent_noop (some "id9") none [b0, b1] (by decide)

/-- Claim C7: an update event preserves the list's length, maps every
position pointwise (the row at position `i` is replaced by the event's
record exactly when its id matches, so ordering is preserved and the list
is not re-sorted), and is a no-op when no row carries the event's id. -/
theorem applyUpdate_in_place (r : Bookmark) (l : List Bookmark) :
    (applyUpdate r l).length = l.length ∧
    (∀ i : Nat, (applyUpdate r l).get? i =
      (l.get? i).map (fun b => if b.id = r.id then r else b)) ∧
    (r.id ∉ ids l → applyUpdate r l = l) := by
  refine ⟨by simp [applyUpdate], ?_, ?_⟩
  · intro i
    simp [applyUpdate]
  · intro h
    unfold applyUpdate
    conv_rhs => rw [← List.map_id l]
    apply List.map_congr_left
    intro b hb
    have hne : b.id ≠ r.id := fun he => h (List.mem_map.mpr ⟨b, hb, he⟩)
    simp [hne]

/-- Witness for C7 at a concrete input: updating `b0` to `b0up` in
`[b0, b1]` keeps length 2 and replaces only position 0; updating a row
whose id is absent from `[b1]` is a no-op. -/
theorem applyUpdate_in_place_witness :
    (applyUpdate b0up [b0, b1]).length = 2 ∧
    (applyUpdate b0up [b0, b1]).get? 0 = some b0up ∧
    applyUpdate b0up [b1] = [b1] :=
  ⟨(applyUpdate_in_place b0up [b0, b1]).1,
   by rw [(applyUpdate_in_place b0up [b0, b1]).2.1 0]; decide,
   (applyUpdate_in_place b0up [b1]).2.2 (by decide)⟩

/-- Claim C8: the DELETE branch resolves the deleted row's id from the
event's old slot, falling back to the new slot when the old slot carries
none, and removes the rows with that id; when neither slot carries an id
the list is left unchanged. (Store-generated ids are non-empty; the
`i ≠ ""` hypotheses record that, since the handler's JS truthiness guard
also skips an empty id.) -/
theorem applyDeleteEvent_id_resolution (i : String) (nId : Option String)
    (l : List Bookmark) (hne : i ≠ "") :
    applyDeleteEvent (some i) nId l = l.filter (fun b => b.id != i) ∧
    applyDeleteEvent none (some i) l = l.filter (fun b => b.id != i) ∧
    applyDeleteEvent none none l = l := by
  have hb : (i != "") = true := by simpa using hne
  refine ⟨?_, ?_, rfl⟩ <;> simp [applyDeleteEvent, deletedId, hb]

/-- Witness for C8: with old slot `"id0"`, and with only the new slot
carrying `"id0"`, the row `b0` is removed from `[b0, b1]`; with neither
slot carrying an id the list is unchanged. -/
theorem applyDeleteEvent_id_resolution_witness :
    applyDeleteEvent (some "id0") (some "id1") [b0, b1] = [b1] ∧
    applyDeleteEvent none (some "id0") [b0, b1] = [b1] ∧
    applyDeleteEvent none none [b0, b1] = [b0, b1] := by
  have h := applyDeleteEvent_id_resolution "id0" (some "id1") [b0, b1]
    (by decide)
  have h2 := applyDeleteEvent_id_resolution "id0" (some "id0") [b0, b1]
    (by decide)
  exact ⟨h.1.trans (by decide), h2.2.1.trans (by decide), h.2.2⟩

/-! API route handlers (`src/app/api/bookmarks/route.ts` and
`src/app/api/bookmarks/[id]/route.ts`). -/

/-- A parsed POST request body. The handler destructures only `url` and
`title` (`const { url, title } = body`); any other fields — including a
client-supplied `user_id` — are carried here as `client_user_id` and
`other_fields` and are never read. -/
structure PostBody where
  url : Option String
  title : Option String
  client_user_id : Option String
  other_fields : List (String × String)
deriving DecidableEq, Repr

/-- The record the POST handler passes to
`supabaseServer.from("bookmarks").insert({ user_id: session.user.id, url, title })`. -/
structure InsertRow where
  user_id : String
  url : String
  title : String
deriving DecidableEq, Repr

/-- The store completing an insert: it keeps the given fields and
generates `id`, `created_at`, `updated_at` (schema defaults
`gen_random_uuid()` / `NOW()`). -/
def storeInsert (genId ts : String) (r : InsertRow) : Bookmark :=
  ⟨genId, r.user_id, r.url, r.title, ts, ts⟩

/-- Response of the POST handler. -/
inductive PostResponse where
  | unauthorized
  | invalidInput
  | storeFailure
  | created (row : Bookmark)
deriving DecidableEq, Repr

/-- POST `/api/bookmarks`: check the session (`!session?.user?.id` — JS
truthiness, so a missing or empty id is rejected with 401), destructure
`url` and `title`, reject with 400 when either is falsy, otherwise insert
`{ user_id: session.user.id, url, title }` and return 201 with the
created row (500 on store error). The second component records what, if
anything, was sent to the store. -/
def POSThandler (session : Option String) (body : PostBody)
    (storeError : Bool) (genId ts : String) :
    PostResponse × Option InsertRow :=
  match session with
  | none => (.unauthorized, none)
  | some uid =>
    if uid == "" then (.unauthorized, none)
    else if !jsTruthy body.url || !jsTruthy body.title then
      (.invalidInput, none)
    else
      let row : InsertRow := ⟨uid, body.url.getD "", body.title.getD ""⟩
      if storeError then (.storeFailure, some row)
      else (.created (storeInsert genId ts row), some row)

/-- Response of the DELETE handler. -/
inductive DeleteResponse where
  | unauthorized
  | storeFailure
  | success
deriving DecidableEq, Repr

/-- DELETE `/api/bookmarks/[id]`: check the session, then
`.delete().eq("id", id).eq("user_id", session.user.id)` — the store keeps
exactly the rows where the conjunction fails — and return
`{ success: true }` whenever the store reports no error, regardless of
whether any row matched. -/
def DELETEhandler (session : Option String) (id : String)
    (storeError : Bool) (store : List Bookmark) :
    DeleteResponse × List Bookmark :=
  match session with
  | none => (.unauthorized, store)
  | some uid =>
    if uid == "" then (.unauthorized, store)
    else if storeError then (.storeFailure, store)
    else (.success, store.filter (fun b => !(b.id == id && b.user_id == uid)))

/-- Claim C3: the owner of the row a POST creates equals the caller's
verified session identity, and the handler's behaviour is independent of
every body field other than `url` and `title` — two bodies agreeing on
`url` and `title` produce identical responses and identical store
inserts, whatever client-supplied `user_id` or extra fields they carry. -/
theorem post_owner_from_session (session : Option String)
    (b1 b2 : PostBody) (storeError : Bool) (genId ts : String)
    (hu : b1.url = b2.url) (ht : b1.title = b2.title) :
    POSThandler session b1 storeError genId ts =
      POSThandler session b2 storeError genId ts ∧
    (∀ uid row, session = some uid →
      (POSThandler session b1 storeError genId ts).2 = some row →
      row.user_id = uid) ∧
    (∀ uid r, session = some uid →
      (POSThandler session b1 storeError genId ts).1 = .created r →
      r.user_id = uid) := by
  refine ⟨?_, ?_, ?_⟩
  · unfold POSThandler
    rw [hu, ht]
  · intro uid row hs hrow
    subst hs
    unfold POSThandler at hrow
    cases h1 : (uid == "") <;> simp only [h1] at hrow
    · cases h2 : (!jsTruthy b1.url || !jsTruthy b1.title) <;>
        simp only [h2] at hrow
      · cases hse : storeError <;> simp [hse] at hrow <;>
          exact congrArg InsertRow.user_id hrow.symm
      · simp at hrow
    · simp at hrow
  · intro uid r hs hr
    subst hs
    unfold POSThandler at hr
    cases h1 : (uid == "") <;> simp only [h1] at hr
    · cases h2 : (!jsTruthy b1.url || !jsTruthy b1.title) <;>
        simp only [h2] at hr
      · cases hse : storeError <;> simp [hse, storeInsert] at hr
        exact congrArg Bookmark.user_id hr.symm
      · simp at hr
    · simp at hr

/-- Witness for C3: two bodies differing only in the client-supplied
`user_id` field yield identical handler results, and the inserted row's
owner is the session's id `"alice"`, not the body's `"mallory"`. -/
theorem post_owner_from_session_witness :
    POSThandler (some "alice")
        ⟨some "https://x.com", some "X", some "mallory", []⟩ false "g1" "t1" =
      POSThandler (some "alice")
        ⟨some "https://x.com", some "X", none, [("extra", "1")]⟩ false "g1" "t1" ∧
    (⟨"alice", "https://x.com", "X"⟩ : InsertRow).user_id = "alice" :=
  ⟨(post_owner_from_session (some "alice")
      ⟨some "https://x.com", some "X", some "mallory", []⟩
      ⟨some "https://x.com", some "X", none, [("extra", "1")]⟩
      false "g1" "t1" rfl rfl).1,
   (post_owner_from_session (some "alice")
      ⟨some "https://x.com", some "X", some "mallory", []⟩
      ⟨some "https://x.com", some "X", none, [("extra", "1")]⟩
      false "g1" "t1" rfl rfl).2.1 "alice" ⟨"alice", "https://x.com", "X"⟩
      rfl (by decide)⟩

/-- Claim C4: an authenticated DELETE filters by both the given id and
the caller's owner identity — a stored row survives exactly when it does
not match both — so no row belonging to a different owner is ever
removed, and the handler reports success whether or not any row matched. -/
theorem delete_scoped_by_owner (uid id : String) (store : List Bookmark)
    (huid : uid ≠ "") :
    (DELETEhandler (some uid) id false store).1 = DeleteResponse.success ∧
    (∀ b ∈ store,
      (b ∈ (DELETEhandler (some uid) id false store).2 ↔
        ¬(b.id = id ∧ b.user_id = uid))) ∧
    (∀ b ∈ store, b.user_id ≠ uid →
      b ∈ (DELETEhandler (some uid) id false store).2) := by
  have he : (uid == "") = false := by simpa using huid
  have hh : DELETEhandler (some uid) id false store =
      (.success, store.filter (fun b => !(b.id == id && b.user_id == uid))) := by
    unfold DELETEhandler
    simp [he]
  refine ⟨by rw [hh], ?_, ?_⟩
  · intro b hb
    rw [hh]
    simp only [List.mem_filter, hb, true_and, Bool.not_eq_true']
    constructor
    · intro hf hc
      simp [hc.1, hc.2] at hf
    · intro hc
      simp only [Bool.and_eq_false_iff, beq_eq_false_iff_ne]
      by_cases h : b.id = id
      · exact Or.inr fun h2 => hc ⟨h, h2⟩
      · exact Or.inl h
  · intro b hb hne
    rw [hh]
    simp only [List.mem_filter, hb, true_and, Bool.not_eq_true',
      Bool.and_eq_false_iff, beq_eq_false_iff_ne]
    exact Or.inr hne

/-- Witness for C4: owner `"bob"` deleting owner `"user0"`'s row id
`"id0"` gets a success response while the row survives, as does a delete
for an id that matches no row at all. -/
theorem delete_scoped_by_owner_witness :
    (DELETEhandler (some "bob") "id0" false [b0]).1 = DeleteResponse.success ∧
    b0 ∈ (DELETEhandler (some "bob") "id0" false [b0]).2 ∧
    (DELETEhandler (some "bob") "id9" false [b0]).1 = DeleteResponse.success :=
  ⟨(delete_scoped_by_owner "bob" "id0" [b0] (by decide)).1,
   (delete_scoped_by_owner "bob" "id0" [b0] (by decide)).2.2 b0
     (by decide) (by decide),
   (delete_scoped_by_owner "bob" "id9" [b0] (by decide)).1⟩

/-- Claim C5: POST answers 401 whenever the session carries no truthy
user id, and — for an authenticated caller — answers 400 whenever `url`
or `title` is missing or empty; on both error paths nothing is sent to
the store. -/
theorem post_error_paths (session : Option String) (body : PostBody)
    (storeError : Bool) (genId ts : String) :
    (jsTruthy session = false →
      POSThandler session body storeError genId ts =
        (PostResponse.unauthorized, none)) ∧
    (∀ uid, session = some uid → uid ≠ "" →
      (jsTruthy body.url = false ∨ jsTruthy body.title = false) →
      POSThandler session body storeError genId ts =
        (PostResponse.invalidInput, none)) := by
  constructor
  · intro hs
    unfold POSThandler
    cases session with
    | none => rfl
    | some uid =>
      have : (uid == "") = true := by
        simp only [jsTruthy] at hs
        simpa using hs
      simp [this]
  · intro uid hs hne hbad
    subst hs
    have he : (uid == "") = false := by simpa using hne
    have hb : (!jsTruthy body.url || !jsTruthy body.title) = true := by
      rcases hbad with h | h <;> simp [h]
    unfold POSThandler
    simp [he, hb]

/-- Witness for C5: an empty-session POST gets 401 with no insert, and an
authenticated POST with an empty title gets 400 with no insert. -/
theorem post_error_paths_witness :
    POSThandler none ⟨some "https://x.com", some "X", none, []⟩ false "g" "t" =
      (PostResponse.unauthorized, none) ∧
    POSThandler (some "alice") ⟨some "https://x.com", some "", none, []⟩
        false "g" "t" =
      (PostResponse.invalidInput, none) :=
  ⟨(post_error_paths none ⟨some "https://x.com", some "X", none, []⟩
      false "g" "t").1 (by decide),
   (post_error_paths (some "alice") ⟨some "https://x.com", some "", none, []⟩
      false "g" "t").2 "alice" rfl (by decide) (Or.inr (by decide))⟩

/-! Add-bookmark form (`src/components/AddBookmarkForm.tsx`). -/

/-- JS `String.prototype.trim`: drop leading and trailing whitespace
(modelled structurally over the character list so that concrete
instances evaluate). -/
def jsTrim (s : String) : String :=
  ⟨(((s.data.dropWhile Char.isWhitespace).reverse).dropWhile
      Char.isWhitespace).reverse⟩

/-- JS `String.prototype.startsWith`. -/
def jsStartsWith (s p : String) : Bool :=
  p.data.isPrefixOf s.data

/-- The normalization step of `handleSubmit`:
`let validatedUrl = url.trim(); if (!validatedUrl.startsWith("http://") && !validatedUrl.startsWith("https://")) validatedUrl = "https://" + validatedUrl`. -/
def normalizeUrl (url : String) : String :=
  let t := jsTrim url
  if !jsStartsWith t "http://" && !jsStartsWith t "https://" then
    "https://" ++ t
  else t

/-- Outcome of one submission of the add-bookmark form. `sent` carries
the JSON body fields `{ url: validatedUrl, title: title.trim() }` of the
request transmitted to POST `/api/bookmarks`; the other constructors set
an inline error and send nothing. -/
inductive SubmitOutcome where
  | notSignedIn
  | invalidUrl
  | emptyTitle
  | sent (url title : String)
deriving DecidableEq, Repr

/-- `handleSubmit` of `AddBookmarkForm.tsx`. `validate` stands for the
browser's `new URL(validatedUrl)` constructor inside `try`/`catch`
(an external collaborator): `true` means the constructor accepts the
string, `false` that it throws. -/
def handleSubmit (validate : String → Bool) (hasSession : Bool)
    (url title : String) : SubmitOutcome :=
  if !hasSession then .notSignedIn
  else if !validate (normalizeUrl url) then .invalidUrl
  else if jsTrim title == "" then .emptyTitle
  else .sent (normalizeUrl url) (jsTrim title)

/-- Claim C9: a trimmed url lacking an `http://`/`https://` scheme is
normalized by prepending `https://` before validation; a url failing
validation is rejected client-side with no request sent; and every
transmitted request carries exactly the normalized, validated url. -/
theorem submit_url_normalized (validate : String → Bool) (hasSession : Bool)
    (url title : String) :
    (jsStartsWith (jsTrim url) "http://" = false →
      jsStartsWith (jsTrim url) "https://" = false →
      normalizeUrl url = "https://" ++ jsTrim url) ∧
    (validate (normalizeUrl url) = false →
      ∀ u t, handleSubmit validate hasSession url title ≠ .sent u t) ∧
    (∀ u t, handleSubmit validate hasSession url title = .sent u t →
      u = normalizeUrl url ∧ validate u = true) := by
  refine ⟨?_, ?_, ?_⟩
  · intro h1 h2
    unfold normalizeUrl
    simp [h1, h2]
  · intro hv u t
    unfold handleSubmit
    cases hasSession with
    | false => simp
    | true => simp [hv]
  · intro u t h
    unfold handleSubmit at h
    cases hs : hasSession with
    | false => simp [hs] at h
    | true =>
      simp only [hs] at h
      cases hv : validate (normalizeUrl url) with
      | false => simp [hv] at h
      | true =>
        simp only [hv] at h
        cases ht : (jsTrim title == "") with
        | true => simp [ht] at h
        | false =>
          simp only [ht, Bool.not_false, Bool.not_true, if_true,
            if_false, reduceIte] at h
          cases h
          exact ⟨rfl, hv⟩

/-- Witness for C9: `" x.com "` is normalized to `"https://x.com"`; with
a validator rejecting everything no request is sent; and a successful
submission transmits the normalized url. -/
theorem submit_url_normalized_witness :
    normalizeUrl " x.com " = "https://x.com" ∧
    handleSubmit (fun _ => false) true " x.com " "T" ≠
      SubmitOutcome.sent "https://x.com" "T" ∧
    ("https://x.com" = normalizeUrl " x.com " ∧
      (fun s => jsStartsWith s "https://") "https://x.com" = true) :=
  ⟨(submit_url_normalized (fun _ => true) true " x.com " "T").1
      (by decide) (by decide) |>.trans (by decide),
   (submit_url_normalized (fun _ => false) true " x.com " "T").2.1
      rfl "https://x.com" "T",
   (submit_url_normalized (fun s => jsStartsWith s "https://") true
      " x.com " "T").2.2 "https://x.com" "T" (by decide)⟩

/-! Snapshot fetch (`fetchBookmarks` in `BookmarkList.tsx`). -/

/-- The component state touched by `fetchBookmarks`: the `bookmarks`,
`isLoading` and `error` React state cells. -/
structure ListState where
  bookmarks : List Bookmark
  isLoading : Bool
  error : String
deriving DecidableEq, Repr

/-- Outcome of the `fetch("/api/bookmarks")` round trip: an ok response
whose parsed body is `data` (`null` modelled as `none`, the handler does
`data || []`), a non-ok HTTP response, or a thrown error. -/
inductive FetchResult where
  | ok (data : Option (List Bookmark))
  | httpError
  | threw
deriving DecidableEq, Repr

/-- `fetchBookmarks`: with no session it clears the list and stops
loading; otherwise it sets loading, clears the error, performs the fetch,
stores `data || []` on success, and on a non-ok response or a thrown
error only sets the error message — `setBookmarks` is not called on the
failure paths — with `isLoading` reset in `finally`. -/
def fetchBookmarks (hasSession : Bool) (res : FetchResult)
    (s : ListState) : ListState :=
  if !hasSession then { s with bookmarks := [], isLoading := false }
  else
    match res with
    | .ok data => ⟨data.getD [], false, ""⟩
    | .httpError => { s with error := "Failed to load bookmarks", isLoading := false }
    | .threw => { s with error := "Failed to load bookmarks", isLoading := false }

/-- Claim C10: every failure of the list fetch (non-ok HTTP response or
thrown error) leaves the in-memory bookmark list exactly as before: the
whole resulting state is the old one with only the error message and
loading flag changed, so a refetch failure after the list is populated
retains the held rows. -/
theorem fetch_failure_preserves_list (res : FetchResult) (s : ListState)
    (hfail : res = FetchResult.httpError ∨ res = FetchResult.threw) :
    fetchBookmarks true res s =
      { s with error := "Failed to load bookmarks", isLoading := false } ∧
    (fetchBookmarks true res s).bookmarks = s.bookmarks := by
  rcases hfail with h | h <;> subst h <;>
    exact ⟨rfl, rfl⟩

/-- Witness for C10: a failing refetch over a populated list keeps
`[b0, b1]`. -/
theorem fetch_failure_preserves_list_witness :
    (fetchBookmarks true FetchResult.httpError ⟨[b0, b1], false, ""⟩).bookmarks
      = [b0, b1] :=
  (fetch_failure_preserves_list FetchResult.httpError ⟨[b0, b1], false, ""⟩
    (Or.inl rfl)).2

end BookmarkApp
